import Mathlib

/-!
Verification of the redaction decision pipeline of `api/redact-document.js`
(main variant, `src/unnamed/part_003` lines 62-295).

The handler's inline logic is embedded shallowly:
* JavaScript numbers are modeled by `JNum` (exact rationals plus the IEEE
  special values `nan`, `posinf`, `neginf`); JSON field values arriving from
  the AI response are modeled by `JVal` (number, string, null, boolean, or
  absent/undefined).
* The mask-geometry normalization (lines 216-219) and the per-page masking
  loop (lines 221-231) become `effEndPageIdx`, `normRatio`, `planLoop` and
  `computeMaskPlan`.
* The word-wrap routine (lines 84-102) becomes `wordWrap`.
* The metadata-extraction fallback loop `analyzeDoc` (lines 142-200) becomes
  `analyzeDocT`, instrumented with the list of attempted model names; the
  network/parse outcome of one attempt is an oracle `String → Option MetaInfo`
  (`none` models any thrown error, `some` a successfully parsed response).
* The field-rendering code `drawField` (lines 242-256) and its call sequence
  (lines 258-269) become `drawField` / `renderFields` over an explicit render
  state; a drawing oracle `String → Bool` models whether `page.drawText`
  succeeds on a given string (it throws on unsupported glyphs), and `Except`
  propagation models JavaScript exception propagation (there is no local
  try/catch in this region).
* The request-handling prefix of the handler (lines 119-124 and 202-205)
  becomes `handlerTrace`, which records which external calls are issued.
* The upload/queue tail (lines 274-289) becomes `safeName`, `insertedRecord`
  and `successResponse`.
-/

/-- A JavaScript number: an exact finite value or one of the IEEE special
values. Arithmetic in the embedded region is exact on the rationals (the
handler only adds small decimal constants and multiplies by page heights), so
finite doubles are modeled by `ℚ`. -/
inductive JNum where
  | fin (q : ℚ)
  | nan
  | posinf
  | neginf
deriving DecidableEq, Repr

/-- A JSON-ish JavaScript value as it can appear in a parsed AI response
field (`maskEndPage`, `maskEndRatio`): a number, a string, `null`, a boolean,
or absent (`undefined`). -/
inductive JVal where
  | num (x : JNum)
  | str (s : String)
  | nullv
  | boolv (b : Bool)
  | undef
deriving DecidableEq, Repr

namespace JNum

/-- JavaScript `<` on numbers: any comparison with `NaN` is false. -/
def jlt : JNum → JNum → Bool
  | .nan, _ => false
  | _, .nan => false
  | .fin a, .fin b => decide (a < b)
  | .fin _, .posinf => true
  | .fin _, .neginf => false
  | .posinf, _ => false
  | .neginf, .neginf => false
  | .neginf, _ => true

/-- JavaScript `===` on numbers: `NaN` is not equal to itself. -/
def jseq : JNum → JNum → Bool
  | .fin a, .fin b => decide (a = b)
  | .posinf, .posinf => true
  | .neginf, .neginf => true
  | _, _ => false

/-- JavaScript `+` on numbers. -/
def jadd : JNum → JNum → JNum
  | .nan, _ => .nan
  | _, .nan => .nan
  | .fin a, .fin b => .fin (a + b)
  | .posinf, .neginf => .nan
  | .neginf, .posinf => .nan
  | .posinf, _ => .posinf
  | _, .posinf => .posinf
  | .neginf, _ => .neginf
  | _, .neginf => .neginf

/-- JavaScript unary negation on numbers. -/
def jneg : JNum → JNum
  | .fin q => .fin (-q)
  | .nan => .nan
  | .posinf => .neginf
  | .neginf => .posinf

/-- JavaScript `-` on numbers. -/
def jsub (a b : JNum) : JNum := jadd a (jneg b)

/-- JavaScript `*` on numbers (`0 * ±∞ = NaN`). -/
def jmul : JNum → JNum → JNum
  | .nan, _ => .nan
  | _, .nan => .nan
  | .fin a, .fin b => .fin (a * b)
  | .fin a, .posinf => if 0 < a then .posinf else if a < 0 then .neginf else .nan
  | .fin a, .neginf => if 0 < a then .neginf else if a < 0 then .posinf else .nan
  | .posinf, .fin b => if 0 < b then .posinf else if b < 0 then .neginf else .nan
  | .neginf, .fin b => if 0 < b then .neginf else if b < 0 then .posinf else .nan
  | .posinf, .posinf => .posinf
  | .posinf, .neginf => .neginf
  | .neginf, .posinf => .neginf
  | .neginf, .neginf => .posinf

/-- `Math.min`: `NaN` if either argument is `NaN`, otherwise the lesser. -/
def jmin : JNum → JNum → JNum
  | .nan, _ => .nan
  | _, .nan => .nan
  | a, b => if jlt a b then a else b

end JNum

/-- JavaScript truthiness of a `JVal` (`0`, `NaN`, `""`, `null`, `undefined`
and `false` are falsy). -/
def jsTruthy : JVal → Bool
  | .num (.fin q) => decide (q ≠ 0)
  | .num .nan => false
  | .num _ => true
  | .str s => decide (s ≠ "")
  | .nullv => false
  | .boolv b => b
  | .undef => false

/-- JavaScript `ToNumber` on strings, modeled for optional-sign decimal
integer literals (the only shapes the mask-plan logic could meet in practice);
every other string maps to `NaN`. No theorem below depends on this case. -/
def jsStringToNumber (s : String) : JNum :=
  let t := s.trim
  if t = "" then .fin 0
  else if t.startsWith "-" then
    match (t.drop 1).toNat? with
    | some n => .fin (-(n : ℚ))
    | none => .nan
  else
    match t.toNat? with
    | some n => .fin (n : ℚ)
    | none => .nan

/-- JavaScript `ToNumber` of a `JVal`, as triggered by arithmetic on it. -/
def toNumber : JVal → JNum
  | .num x => x
  | .str s => jsStringToNumber s
  | .nullv => .fin 0
  | .boolv true => .fin 1
  | .boolv false => .fin 0
  | .undef => .nan

/-- Line 216: `let endPageIdx = (metaInfo.maskEndPage || 1) - 1`. The raw
`maskEndPage` hint is 1-based; the result is the 0-based index of the page
that receives the partial mask. -/
def effEndPageIdx (v : JVal) : JNum :=
  if jsTruthy v then JNum.jsub (toNumber v) (JNum.fin 1) else JNum.fin 0

/-- Lines 217-219:
`let endRatio = metaInfo.maskEndRatio;`
`if (typeof endRatio !== 'number') endRatio = 0.6;`
`endRatio = Math.min(endRatio + 0.05, 1.0);`
Note the default `0.6` is substituted only when the value is not
number-typed (`NaN` and the infinities are number-typed in JavaScript). -/
def normRatio (v : JVal) : JNum :=
  let r : JNum := match v with
    | .num x => x
    | _ => .fin ((3 : ℚ) / 5)
  JNum.jmin (JNum.jadd r (.fin ((1 : ℚ) / 20))) (.fin 1)

/-- One masking instruction of the plan: lines 224-229 either draw a
full-page white rectangle or a top rectangle of height `maskHeight`. -/
inductive MaskInstr where
  | fullPage (idx : ℕ) (w h : ℚ)
  | topMask (idx : ℕ) (w h : ℚ) (maskHeight : JNum)
deriving DecidableEq, Repr

/-- Whether an instruction is the partial (top-of-page) mask. -/
def MaskInstr.isTopMask : MaskInstr → Bool
  | .fullPage _ _ _ => false
  | .topMask _ _ _ _ => true

/-- Lines 221-231: the per-page loop. `i < endPageIdx` draws a full-page
rectangle; `i === endPageIdx` draws the partial mask of height
`height * endRatio` and breaks; otherwise the iteration does nothing. -/
def planLoop (eIdx eRatio : JNum) : List (ℚ × ℚ) → ℕ → List MaskInstr
  | [], _ => []
  | (w, h) :: rest, i =>
    if JNum.jlt (.fin (i : ℚ)) eIdx then
      MaskInstr.fullPage i w h :: planLoop eIdx eRatio rest (i + 1)
    else if JNum.jseq (.fin (i : ℚ)) eIdx then
      [MaskInstr.topMask i w h (JNum.jmul (.fin h) eRatio)]
    else
      planLoop eIdx eRatio rest (i + 1)

/-- The mask geometry calculator: normalization (lines 216-219) followed by
the masking loop (lines 221-231), over the document's page sizes
(width, height). -/
def computeMaskPlan (pages : List (ℚ × ℚ)) (maskEndPage maskEndRatio : JVal) :
    List MaskInstr :=
  planLoop (effEndPageIdx maskEndPage) (normRatio maskEndRatio) pages 0

example :
    computeMaskPlan [(100, 200)] (JVal.num (.fin 1)) (JVal.num (.fin 2)) =
      [MaskInstr.topMask 0 100 200 (.fin 200)] := by
  norm_num [computeMaskPlan, planLoop, effEndPageIdx, normRatio, jsTruthy, toNumber,
    JNum.jlt, JNum.jseq, JNum.jadd, JNum.jmin, JNum.jsub, JNum.jneg, JNum.jmul]

example :
    computeMaskPlan [(100, 200), (100, 200)] (JVal.num (.fin 6))
      (JVal.num (.fin (1/2))) =
      [MaskInstr.fullPage 0 100 200, MaskInstr.fullPage 1 100 200] := by
  norm_num [computeMaskPlan, planLoop, effEndPageIdx, normRatio, jsTruthy, toNumber,
    JNum.jlt, JNum.jseq, JNum.jadd, JNum.jmin, JNum.jsub, JNum.jneg, JNum.jmul]

example :
    computeMaskPlan [(100, 200)] (JVal.num (.fin (-1))) (JVal.num (.fin (1/2)))
      = [] := by
  norm_num [computeMaskPlan, planLoop, effEndPageIdx, normRatio, jsTruthy, toNumber,
    JNum.jlt, JNum.jseq, JNum.jadd, JNum.jmin, JNum.jsub, JNum.jneg, JNum.jmul]

example :
    computeMaskPlan [(100, 200), (100, 200), (100, 200)] (JVal.num (.fin 2))
      (JVal.num (.fin (1/10))) =
      [MaskInstr.fullPage 0 100 200,
       MaskInstr.topMask 1 100 200 (.fin 30)] := by
  norm_num [computeMaskPlan, planLoop, effEndPageIdx, normRatio, jsTruthy, toNumber,
    JNum.jlt, JNum.jseq, JNum.jadd, JNum.jmin, JNum.jsub, JNum.jneg, JNum.jmul]

/-- The result shape demanded from the AI model (prompt, lines 170-177) and
produced by the sentinel (lines 196-199). A parsed response may carry
arbitrary JSON values in the two geometry fields, hence `JVal`. -/
structure MetaInfo where
  court : String
  caseNo : String
  parties_anonymized : String
  lawyer_info : String
  order_anonymized : String
  claim_anonymized : String
  maskEndPage : JVal
  maskEndRatio : JVal
deriving DecidableEq, Repr

/-- Lines 196-199: the failure sentinel returned when every model fails. -/
def sentinelMeta : MetaInfo :=
  { court := "분석실패", caseNo := "정보없음", parties_anonymized := "정보없음",
    lawyer_info := "정보없음", order_anonymized := "내용 없음",
    claim_anonymized := "내용 없음",
    maskEndPage := JVal.num (.fin 1), maskEndRatio := JVal.num (.fin ((1 : ℚ) / 2)) }

/-- Lines 76-81: the ordered candidate model identifiers. -/
def MODELS_TO_TRY : List String :=
  ["gemini-2.0-flash", "gemini-2.5-flash", "gemini-flash-latest", "gemini-pro-latest"]

/-- Lines 142-200: `analyzeDoc`, instrumented with the list of model names
actually attempted. `attempt m = some r` models a request to model `m` whose
response parses to `r`; `attempt m = none` models any thrown error (network,
quota, non-JSON body), which the `catch { continue }` swallows. The function
is total: in the embedding, "never raises to the caller" is the fact that it
returns a `MetaInfo` for every oracle and every candidate list. -/
def analyzeDocT (attempt : String → Option MetaInfo) :
    List String → List String × MetaInfo
  | [] => ([], sentinelMeta)
  | m :: rest =>
    match attempt m with
    | some r => ([m], r)
    | none =>
      let p := analyzeDocT attempt rest
      (m :: p.1, p.2)

example : analyzeDocT (fun _ => none) MODELS_TO_TRY = (MODELS_TO_TRY, sentinelMeta) := by
  simp [analyzeDocT, MODELS_TO_TRY]

/-- Character-level splitter: splitting on `' '` after replacing every
`'\n'` by `' '` is splitting on either character. Each separator occurrence
splits (so repeated separators yield empty words), and the empty input yields
`[""]`, exactly as JavaScript `split(' ')` behaves. -/
def splitWordsAux : List Char → List Char → List String
  | [], acc => [String.mk acc.reverse]
  | c :: cs, acc =>
    if c = ' ' ∨ c = '\n' then String.mk acc.reverse :: splitWordsAux cs []
    else splitWordsAux cs (c :: acc)

/-- Lines 84-86: `text.replace(/\n/g, ' ').split(' ')` — the word list the
wrap loop operates on (may contain empty strings for repeated spaces). -/
def wordsOf (text : String) : List String :=
  splitWordsAux text.data []

/-- Space-joining of a list of lines (or of the original words), used to
state that wrapping loses no content. -/
def joinSp : List String → String
  | [] => ""
  | [x] => x
  | x :: xs => x ++ " " ++ joinSp xs

/-- Lines 88-100: the greedy wrap loop. `cur` is `currentLine`; a word is
appended when the measured width of the tentative line stays strictly below
`maxWidth`, otherwise the current line is committed and the word starts a new
line; the final current line is always committed. -/
def wrapLoop (f : String → ℚ) (maxWidth : ℚ) : String → List String → List String
  | cur, [] => [cur]
  | cur, w :: ws =>
    if f (cur ++ " " ++ w) < maxWidth then
      wrapLoop f maxWidth (cur ++ " " ++ w) ws
    else
      cur :: wrapLoop f maxWidth w ws

/-- Lines 84-102: `wordWrap(text, maxWidth, font, fontSize)`. The pdf-lib
measurement `font.widthOfTextAtSize(s, fontSize)` is abstracted as
`f : String → ℚ`. `none` models an absent (`undefined`) argument; together
with `""` it is rejected by the falsy guard `if (!text) return []`. The
`| [] => []` branch is unreachable (`String.splitOn` never returns `[]`) and
mirrors the JavaScript access `words[0]`. -/
def wordWrap (text : Option String) (maxWidth : ℚ) (f : String → ℚ) :
    List String :=
  match text with
  | none => []
  | some t =>
    if t = "" then []
    else
      match wordsOf t with
      | [] => []
      | w :: ws => wrapLoop f maxWidth w ws

example :
    wordWrap (some "ab cd ef") 6 (fun s => (s.length : ℚ)) = ["ab cd", "ef"] := by
  decide

example :
    wordWrap (some "ab cd ef") 20 (fun s => (s.length : ℚ)) = ["ab cd ef"] := by
  decide

/-- The renderer state: the texts drawn so far on the first page (with the
vertical cursor position at which each was drawn) and the cursor `textY`. -/
structure RState where
  drawn : List (String × ℚ)
  textY : ℚ
deriving DecidableEq, Repr

/-- `firstPage.drawText(t, {y: textY, ...})`, where the oracle
`ok : String → Bool` models whether pdf-lib can encode every glyph of `t`
with the embedded font; on `false` the call throws (modeled as
`Except.error`), exactly as pdf-lib's `drawText` does for an unsupported
glyph. -/
def drawTextS (ok : String → Bool) (t : String) (st : RState) :
    Except String RState :=
  if ok t then .ok { st with drawn := st.drawn ++ [(t, st.textY)] } else .error t

/-- Lines 247-253: draw each wrapped content line, decrementing `textY` by
`lineHeight = 16` after each line. -/
def drawLinesS (ok : String → Bool) : List String → RState → Except String RState
  | [], st => .ok st
  | l :: rest, st =>
    match drawTextS ok l st with
    | .error e => .error e
    | .ok st1 => drawLinesS ok rest { st1 with textY := st1.textY - 16 }

/-- JavaScript `content || "정보없음"` (line 246): an absent or empty value is
replaced by the placeholder string before wrapping. -/
def contentOrDefault : Option String → String
  | none => "정보없음"
  | some c => if c = "" then "정보없음" else c

/-- Lines 242-256: `drawField(label, content)`. It draws the label, wraps the
content (placeholder-substituted when falsy) to the remaining width, draws
every line, and finally moves the cursor down by the paragraph gap of 5.
There is no try/catch anywhere in this function or around its call sites, so
an error from any `drawText` propagates (`Except` bind). -/
def drawField (ok : String → Bool) (f : String → ℚ) (width : ℚ)
    (label : String) (content : Option String) (st : RState) :
    Except String RState :=
  let labelWidth := f (label ++ ": ")
  match drawTextS ok (label ++ ":") st with
  | .error e => .error e
  | .ok st1 =>
    let maxContentWidth := width - 100 - labelWidth
    let lines := wordWrap (some (contentOrDefault content)) maxContentWidth f
    match
      (if lines.length > 0 then drawLinesS ok lines st1
       else Except.ok { st1 with textY := st1.textY - 16 }) with
    | .error e => .error e
    | .ok st2 => .ok { st2 with textY := st2.textY - 5 }

/-- Lines 258-269: the fixed field sequence drawn on the first page (the
four labeled fields, then the two section headers with their rewritten
bodies). Any error from a single field aborts the rest, because the source
has no try/catch here. -/
def renderFields (ok : String → Bool) (f : String → ℚ) (width : ℚ)
    (m : MetaInfo) (st : RState) : Except String RState :=
  match drawField ok f width "법원" (some m.court) st with
  | .error e => .error e
  | .ok st => match drawField ok f width "사건" (some m.caseNo) st with
  | .error e => .error e
  | .ok st => match drawField ok f width "당사자(가명)" (some m.parties_anonymized) st with
  | .error e => .error e
  | .ok st => match drawField ok f width "대리인(실명)" (some m.lawyer_info) st with
  | .error e => .error e
  | .ok st =>
    let st := { st with textY := st.textY - 10 }
    match drawTextS ok "[주 문 (가명 처리)]" st with
  | .error e => .error e
  | .ok st =>
    let st := { st with textY := st.textY - 20 }
    match drawField ok f width "" (some m.order_anonymized) st with
  | .error e => .error e
  | .ok st =>
    let st := { st with textY := st.textY - 10 }
    match drawTextS ok "[청구 취지 (가명 처리)]" st with
  | .error e => .error e
  | .ok st =>
    let st := { st with textY := st.textY - 20 }
    drawField ok f width "" (some m.claim_anonymized) st

/-- The handler's sequence of `drawField` invocations in the abstract: a list
of (label, content) pairs processed in order with no try/catch between them,
as in lines 258-269. -/
def renderFieldList (ok : String → Bool) (f : String → ℚ) (width : ℚ) :
    List (String × Option String) → RState → Except String RState
  | [], st => .ok st
  | (l, c) :: rest, st =>
    match drawField ok f width l c st with
    | .error e => .error e
    | .ok st1 => renderFieldList ok f width rest st1

/-- Lines 122-124: strip an optional data-URI header. JavaScript
`s.split("base64,")[1]` is the piece between the first and second occurrence
of the marker, taken only when `s.includes("base64,")`. -/
def stripHeader (s : String) : String :=
  match s.splitOn "base64," with
  | _ :: p :: _ => p
  | _ => s

/-- Line 124: `replace(/[\r\n\s]/g, '')` — remove all whitespace introduced
by naive base64 chunking. -/
def stripWs (s : String) : String :=
  String.mk (s.data.filter (fun c => !c.isWhitespace))

/-- Lines 122-124: the cleaned base64 payload. -/
def cleanBase64 (s : String) : String := stripWs (stripHeader s)

/-- An externally visible call issued by the handler. -/
inductive CallEv where
  | fontFetch
  | aiCall (model : String)
  | pdfLoad
deriving DecidableEq, Repr

/-- Lines 104-205 of the main handler, up to `PDFDocument.load`: request-body
validation (lines 119-124), then the two parallel tasks (font fetch, line
129; AI analysis, line 142; joined at line 202), then the PDF load
(line 205). The trace records which external calls were issued, in promise
creation order. `attempt` is the per-model AI oracle, `pdfValid c` models
whether `PDFDocument.load` accepts the cleaned payload `c` (a malformed
base64 string makes it throw). Errors after this point (render, upload) do
not matter for the claims about the input-error path and are not modeled. -/
def handlerTrace (fileBase64 : Option String)
    (attempt : String → Option MetaInfo) (pdfValid : String → Bool) :
    List CallEv × Except String MetaInfo :=
  match fileBase64 with
  | none => ([], .error "파일 데이터가 없습니다.")
  | some fb =>
    if fb = "" then ([], .error "파일 데이터가 없습니다.")
    else
      let clean := cleanBase64 fb
      let ai := analyzeDocT attempt MODELS_TO_TRY
      let evs := CallEv.fontFetch :: ai.1.map CallEv.aiCall ++ [CallEv.pdfLoad]
      if pdfValid clean then (evs, .ok ai.2)
      else (evs, .error "pdf load failed")

/-- Line 275: the object name handed to the storage upload. The display
filename has every character outside `[a-zA-Z0-9.]` replaced by `'_'`, and
the result is prefixed with `SECURE_<timestamp>_`. -/
def isFilenameKept (c : Char) : Bool :=
  ('a' ≤ c && c ≤ 'z') || ('A' ≤ c && c ≤ 'Z') || ('0' ≤ c && c ≤ '9') || c = '.'

/-- One character of `fileName.replace(/[^a-zA-Z0-9.]/g, "_")`. -/
def sanitizeChar (c : Char) : Char :=
  if isFilenameKept c then c else '_'

/-- Line 275: `SECURE_${timestamp}_${fileName.replace(/[^a-zA-Z0-9.]/g, "_")}`.
The timestamp is `new Date().getTime()`, a non-negative integer, modeled as a
`ℕ` input and rendered in decimal (`Nat.repr`); the regex replacement is the
character-wise `sanitizeChar` map over the filename. -/
def safeName (timestamp : ℕ) (fileName : String) : String :=
  "SECURE_" ++ Nat.repr timestamp ++ "_" ++ String.mk (fileName.data.map sanitizeChar)

/-- The row inserted into `document_queue` (lines 282-287). `ai_result: {}`
is an empty JSON object, modeled as an empty key-value list. `metaInfo` is in
scope at the insert site; taking it as a parameter makes its non-use
provable. -/
structure QueueRecord where
  filename : String
  file_url : String
  status : String
  ai_result : List (String × String)
deriving DecidableEq, Repr

/-- Lines 282-287: the inserted queue record. -/
def insertedRecord (_metaInfo : MetaInfo) (objectName publicUrl : String) :
    QueueRecord :=
  { filename := objectName, file_url := publicUrl, status := "pending",
    ai_result := [] }

/-- The success response body (line 289). -/
structure ApiResponse where
  success : Bool
  message : String
  fileUrl : String
  extractedMeta : MetaInfo
deriving DecidableEq, Repr

/-- Line 289: `res.status(200).json({success, message, fileUrl, extractedMeta})`. -/
def successResponse (publicUrl : String) (metaInfo : MetaInfo) : ApiResponse :=
  { success := true, message := "완료", fileUrl := publicUrl,
    extractedMeta := metaInfo }

/-! ## Structural lemmas about the masking loop -/

/-- The expected all-pages-fully-masked output used to describe the plan when
the anchor index is at or past the end of the document. -/
def allFull : List (ℚ × ℚ) → ℕ → List MaskInstr
  | [], _ => []
  | (w, h) :: rest, i => MaskInstr.fullPage i w h :: allFull rest (i + 1)

lemma allFull_countP :
    ∀ (pages : List (ℚ × ℚ)) (i : ℕ),
      (allFull pages i).countP MaskInstr.isTopMask = 0 := by
  intro pages
  induction pages with
  | nil => intro i; rfl
  | cons p rest ih =>
    rcases p with ⟨w, hgt⟩
    intro i
    simp [allFull, List.countP_cons, MaskInstr.isTopMask, ih (i + 1)]

lemma planLoop_full (r : JNum) :
    ∀ (pages : List (ℚ × ℚ)) (i : ℕ) (k : ℚ),
      (i : ℚ) + pages.length ≤ k →
      planLoop (.fin k) r pages i = allFull pages i := by
  intro pages
  induction pages with
  | nil => intro i k _; rfl
  | cons p rest ih =>
    rcases p with ⟨w, hgt⟩
    intro i k hk
    have hlen : (0 : ℚ) ≤ (rest.length : ℚ) := by positivity
    simp only [List.length_cons] at hk
    push_cast at hk
    have hi : (i : ℚ) < k := by linarith
    have hjlt : JNum.jlt (.fin (i : ℚ)) (.fin k) = true := by
      simp [JNum.jlt, hi]
    have hstep : ((i + 1 : ℕ) : ℚ) + (rest.length : ℚ) ≤ k := by
      push_cast
      linarith
    simp only [planLoop, hjlt, if_true, allFull]
    exact congrArg _ (ih (i + 1) k hstep)

lemma planLoop_neg (r : JNum) :
    ∀ (pages : List (ℚ × ℚ)) (i : ℕ) (q : ℚ), q < 0 →
      planLoop (.fin q) r pages i = [] := by
  intro pages
  induction pages with
  | nil => intro i q _; rfl
  | cons p rest ih =>
    rcases p with ⟨w, hgt⟩
    intro i q hq
    have hge : (0 : ℚ) ≤ (i : ℚ) := by positivity
    have hjlt : JNum.jlt (.fin (i : ℚ)) (.fin q) = false := by
      simp only [JNum.jlt, decide_eq_false_iff_not, not_lt]
      linarith
    have hjeq : JNum.jseq (.fin (i : ℚ)) (.fin q) = false := by
      simp only [JNum.jseq, decide_eq_false_iff_not]
      intro h
      rw [h] at hge
      linarith
    simp only [planLoop, hjlt, hjeq, if_false]
    exact ih (i + 1) q hq

lemma planLoop_noTop (e r : JNum)
    (he : ∀ n : ℕ, JNum.jseq (.fin (n : ℚ)) e = false) :
    ∀ (pages : List (ℚ × ℚ)) (i : ℕ),
      ∀ ins ∈ planLoop e r pages i, ins.isTopMask = false := by
  intro pages
  induction pages with
  | nil => intro i ins h; simp [planLoop] at h
  | cons p rest ih =>
    rcases p with ⟨w, hgt⟩
    intro i ins hins
    by_cases hlt : JNum.jlt (.fin (i : ℚ)) e = true
    · simp [planLoop, hlt] at hins
      rcases hins with h | h
      · rw [h]; rfl
      · exact ih (i + 1) ins h
    · rw [Bool.not_eq_true] at hlt
      simp [planLoop, hlt, he i] at hins
      exact ih (i + 1) ins hins

lemma planLoop_shape (e r : JNum) :
    ∀ (pages : List (ℚ × ℚ)) (i : ℕ),
      ∃ fl tl, planLoop e r pages i = fl ++ tl ∧
        (∀ x ∈ fl, ∃ j w h, x = MaskInstr.fullPage j w h ∧
            JNum.jlt (.fin (j : ℚ)) e = true) ∧
        (tl = [] ∨ ∃ j w h, tl = [MaskInstr.topMask j w h (JNum.jmul (.fin h) r)] ∧
            JNum.jseq (.fin (j : ℚ)) e = true) := by
  intro pages
  induction pages with
  | nil => exact fun i => ⟨[], [], rfl, by simp, Or.inl rfl⟩
  | cons p rest ih =>
    rcases p with ⟨w, hgt⟩
    intro i
    by_cases hlt : JNum.jlt (.fin (i : ℚ)) e = true
    · obtain ⟨fl, tl, heq, hfl, htl⟩ := ih (i + 1)
      refine ⟨MaskInstr.fullPage i w hgt :: fl, tl, ?_, ?_, htl⟩
      · simp [planLoop, hlt, heq]
      · intro x hx
        rcases List.mem_cons.mp hx with h | h
        · exact ⟨i, w, hgt, h, hlt⟩
        · exact hfl x h
    · rw [Bool.not_eq_true] at hlt
      by_cases hseq : JNum.jseq (.fin (i : ℚ)) e = true
      · refine ⟨[], [MaskInstr.topMask i w hgt (JNum.jmul (.fin hgt) r)], ?_, by simp,
          Or.inr ⟨i, w, hgt, rfl, hseq⟩⟩
        simp only [planLoop, hlt, hseq]
        rfl
      · rw [Bool.not_eq_true] at hseq
        obtain ⟨fl, tl, heq, hfl, htl⟩ := ih (i + 1)
        refine ⟨fl, tl, ?_, hfl, htl⟩
        simp [planLoop, hlt, hseq, heq]

/-! ## Claims about the mask geometry calculator -/

/-- C1 is false on the code: a finite numeric ratio outside (0,1] is NOT
replaced by the policy default. With page height 200 and `maskEndRatio = 2`,
the code's partial mask height is `200` (the margin-then-cap applied to the
raw out-of-range value), not `200 × min(0.6 + 0.05, 1) = 130` (the code's
documented default 0.6) nor `200 × min(0.5 + 0.05, 1) = 110` (the spec's
alternative default 0.5), as default substitution would give. -/
theorem c1_counterexample :
    computeMaskPlan [(100, 200)] (JVal.num (.fin 1)) (JVal.num (.fin 2)) =
      [MaskInstr.topMask 0 100 200 (.fin 200)] ∧
    JNum.fin 200 ≠ JNum.fin ((200 : ℚ) * (13 / 20)) ∧
    JNum.fin 200 ≠ JNum.fin ((200 : ℚ) * (11 / 20)) := by
  refine ⟨?_, ?_, ?_⟩
  · norm_num [computeMaskPlan, planLoop, effEndPageIdx, normRatio, jsTruthy, toNumber,
      JNum.jlt, JNum.jseq, JNum.jadd, JNum.jmin, JNum.jsub, JNum.jneg, JNum.jmul]
  · intro h
    injection h with h
    norm_num at h
  · intro h
    injection h with h
    norm_num at h

/-- C1 (amended): the default ratio 0.6 is substituted exactly when the raw
`maskEndRatio` is not a number-typed value; a number-typed ratio — even one
outside (0,1], `NaN` or infinite — goes through unchanged. In both cases the
safety margin gives `ratio' = Math.min(ratio + 0.05, 1.0)` (so `0.65` in the
default case), the computation is total (never throws), and the partial mask
height on the anchor page is `page.height × ratio'`. -/
theorem c1_ratio_normalization (v : JVal) (w h : ℚ) :
    ((∀ x : JNum, v ≠ .num x) → normRatio v = .fin ((13 : ℚ) / 20)) ∧
    (∀ x : JNum, v = .num x →
      normRatio v = JNum.jmin (JNum.jadd x (.fin ((1 : ℚ) / 20))) (.fin 1)) ∧
    computeMaskPlan [(w, h)] (JVal.num (.fin 1)) v =
      [MaskInstr.topMask 0 w h (JNum.jmul (.fin h) (normRatio v))] := by
  refine ⟨?_, ?_, ?_⟩
  · intro hnum
    cases v with
    | num x => exact absurd rfl (hnum x)
    | str s => norm_num [normRatio, JNum.jadd, JNum.jmin, JNum.jlt]
    | nullv => norm_num [normRatio, JNum.jadd, JNum.jmin, JNum.jlt]
    | boolv b => norm_num [normRatio, JNum.jadd, JNum.jmin, JNum.jlt]
    | undef => norm_num [normRatio, JNum.jadd, JNum.jmin, JNum.jlt]
  · intro x hx
    subst hx
    rfl
  · norm_num [computeMaskPlan, planLoop, effEndPageIdx, jsTruthy, toNumber,
      JNum.jsub, JNum.jneg, JNum.jadd, JNum.jlt, JNum.jseq]

/-- Witness for `c1_ratio_normalization` at concrete inputs: an absent ratio
gets the default 0.65; the out-of-range numeric ratio 2 is passed to the
margin step unsubstituted; the one-page plan carries `h × ratio'`. -/
theorem c1_witness :
    normRatio JVal.undef = .fin ((13 : ℚ) / 20) ∧
    normRatio (JVal.num (.fin 2)) =
      JNum.jmin (JNum.jadd (.fin 2) (.fin ((1 : ℚ) / 20))) (.fin 1) ∧
    computeMaskPlan [((100 : ℚ), (200 : ℚ))] (JVal.num (.fin 1)) JVal.undef =
      [MaskInstr.topMask 0 100 200 (JNum.jmul (.fin 200) (normRatio JVal.undef))] :=
  ⟨(c1_ratio_normalization JVal.undef 100 200).1 (fun _ h => JVal.noConfusion h),
   (c1_ratio_normalization (JVal.num (.fin 2)) 100 200).2.1 (.fin 2) rfl,
   (c1_ratio_normalization JVal.undef 100 200).2.2⟩

/-- C2 is false on the code: there is no clamp of the anchor page index to
the last page. For a two-page document with `maskEndPage = 6` (anchor index
5 ≥ pageCount = 2) every page — including the last — receives a full-page
instruction and no partial-top instruction is emitted at all, whereas the
claim requires the last page to receive the partial-top instruction. -/
theorem c2_counterexample :
    computeMaskPlan [(100, 200), (100, 200)] (JVal.num (.fin 6))
        (JVal.num (.fin ((1 : ℚ) / 2))) =
      [MaskInstr.fullPage 0 100 200, MaskInstr.fullPage 1 100 200] ∧
    (computeMaskPlan [(100, 200), (100, 200)] (JVal.num (.fin 6))
        (JVal.num (.fin ((1 : ℚ) / 2)))).countP MaskInstr.isTopMask = 0 := by
  constructor
  · norm_num [computeMaskPlan, planLoop, effEndPageIdx, normRatio, jsTruthy, toNumber,
      JNum.jlt, JNum.jseq, JNum.jadd, JNum.jmin, JNum.jsub, JNum.jneg, JNum.jmul]
  · norm_num [computeMaskPlan, planLoop, effEndPageIdx, normRatio, jsTruthy, toNumber,
      JNum.jlt, JNum.jseq, JNum.jadd, JNum.jmin, JNum.jsub, JNum.jneg, JNum.jmul,
      List.countP_cons, MaskInstr.isTopMask]

/-- C2 (amended): when the anchor page index is at or past the page count,
no clamping happens — every page of the document (the last one included)
receives a full-page opaque instruction and no partial-top instruction is
emitted. (`maskEndPage = k + 1` makes the 0-based anchor index `k`.) -/
theorem c2_overflow_all_full (pages : List (ℚ × ℚ)) (r : JVal) (k : ℕ)
    (hk : pages.length ≤ k) :
    computeMaskPlan pages (JVal.num (.fin ((k : ℚ) + 1))) r = allFull pages 0 ∧
    (allFull pages 0).countP MaskInstr.isTopMask = 0 := by
  constructor
  · have hne : ((k : ℚ) + 1) ≠ 0 := by positivity
    have heff : effEndPageIdx (JVal.num (.fin ((k : ℚ) + 1))) = .fin (k : ℚ) := by
      simp [effEndPageIdx, jsTruthy, toNumber, JNum.jsub, JNum.jneg, JNum.jadd, hne]
    rw [computeMaskPlan, heff]
    apply planLoop_full
    rw [Nat.cast_zero, zero_add]
    exact_mod_cast hk
  · exact allFull_countP pages 0

/-- Witness for `c2_overflow_all_full`: one page, anchor hint 2 (index 1 ≥
pageCount 1) — the single page is fully masked, nothing partial. -/
theorem c2_witness :
    computeMaskPlan [((100 : ℚ), (200 : ℚ))] (JVal.num (.fin ((1 : ℚ) + 1)))
        (JVal.num (.fin ((1 : ℚ) / 2))) = allFull [(100, 200)] 0 ∧
    (allFull [((100 : ℚ), (200 : ℚ))] 0).countP MaskInstr.isTopMask = 0 := by
  have h := c2_overflow_all_full [((100 : ℚ), (200 : ℚ))]
    (JVal.num (.fin ((1 : ℚ) / 2))) 1 (by norm_num)
  simpa using h

/-- C3 is false on the code: a negative anchor page hint is not clamped to
0. With `maskEndPage = -1` (a negative, hence 0-based anchor index `-2`) the
plan for a one-page document is empty — no partial-top instruction on page 0
at all. -/
theorem c3_counterexample :
    computeMaskPlan [(100, 200)] (JVal.num (.fin (-1)))
      (JVal.num (.fin ((1 : ℚ) / 2))) = [] := by
  norm_num [computeMaskPlan, planLoop, effEndPageIdx, normRatio, jsTruthy, toNumber,
    JNum.jlt, JNum.jseq, JNum.jadd, JNum.jmin, JNum.jsub, JNum.jneg, JNum.jmul]

/-- C3 (amended): the effective page index becomes 0 exactly for the falsy
page hints — absent, `0`, or `NaN` — and then the plan of a nonempty
document is exactly one partial-top instruction on page 0. Other anchors are
not normalized: whenever the effective index is not a natural number (e.g.
negative or fractional hints) no partial-top instruction is emitted, and a
negative effective index yields an empty plan. -/
theorem c3_page_hint_normalization :
    (effEndPageIdx JVal.undef = .fin 0 ∧
     effEndPageIdx (JVal.num (.fin 0)) = .fin 0 ∧
     effEndPageIdx (JVal.num .nan) = .fin 0) ∧
    (∀ (w h : ℚ) (rest : List (ℚ × ℚ)) (r pv : JVal),
      effEndPageIdx pv = .fin 0 →
      computeMaskPlan ((w, h) :: rest) pv r =
        [MaskInstr.topMask 0 w h (JNum.jmul (.fin h) (normRatio r))]) ∧
    (∀ (pv r : JVal) (pages : List (ℚ × ℚ)) (q : ℚ),
      effEndPageIdx pv = .fin q → q < 0 →
      computeMaskPlan pages pv r = []) ∧
    (∀ (pv r : JVal) (pages : List (ℚ × ℚ)),
      (∀ n : ℕ, JNum.jseq (.fin (n : ℚ)) (effEndPageIdx pv) = false) →
      (computeMaskPlan pages pv r).countP MaskInstr.isTopMask = 0) := by
  refine ⟨⟨rfl, rfl, rfl⟩, ?_, ?_, ?_⟩
  · intro w h rest r pv hpv
    rw [computeMaskPlan, hpv]
    simp only [planLoop]
    norm_num [JNum.jlt, JNum.jseq]
  · intro pv r pages q hpv hq
    rw [computeMaskPlan, hpv]
    exact planLoop_neg _ pages 0 q hq
  · intro pv r pages hpv
    rw [List.countP_eq_zero]
    intro ins hins
    have := planLoop_noTop (effEndPageIdx pv) (normRatio r) hpv pages 0 ins hins
    simp [this]

/-- Witness for `c3_page_hint_normalization` at concrete inputs: an absent
hint masks exactly the top of page 0; the hint `-1` (effective index `-2`)
leaves the one-page document entirely unmasked. -/
theorem c3_witness :
    computeMaskPlan [((100 : ℚ), (200 : ℚ))] JVal.undef (JVal.num (.fin ((1 : ℚ) / 2))) =
      [MaskInstr.topMask 0 100 200
        (JNum.jmul (.fin 200) (normRatio (JVal.num (.fin ((1 : ℚ) / 2)))))] ∧
    computeMaskPlan [((100 : ℚ), (200 : ℚ))] (JVal.num (.fin (-1)))
      (JVal.num (.fin ((1 : ℚ) / 2))) = [] :=
  ⟨c3_page_hint_normalization.2.1 100 200 [] (JVal.num (.fin ((1 : ℚ) / 2)))
      JVal.undef rfl,
   c3_page_hint_normalization.2.2.1 (JVal.num (.fin (-1)))
      (JVal.num (.fin ((1 : ℚ) / 2))) [((100 : ℚ), (200 : ℚ))] (-2)
      (by norm_num [effEndPageIdx, jsTruthy, toNumber, JNum.jsub, JNum.jneg, JNum.jadd])
      (by norm_num)⟩

/-- C4 (confirmed). For every page-size list and every normalized anchor:
the plan splits as a block of full-page instructions followed by an optional
single final partial-top instruction — so there is at most one partial-mask
entry and, when present, it is the last instruction applied; every full-page
instruction sits on a page strictly before the anchor index and the
partial-top instruction sits exactly on the anchor index, so no page after
the anchor is ever masked. In the concrete three-page scenario with anchor
`{pageIndex: 1, ratio: 0.1}` (i.e. `maskEndPage = 2`), page 0 is fully
masked, page 1 gets a top mask of height `200 × 0.15 = 30` (15% of its
height), and page 2 receives no instruction. -/
theorem c4_plan_invariant :
    (∀ (pages : List (ℚ × ℚ)) (p r : JVal),
      ∃ fl tl, computeMaskPlan pages p r = fl ++ tl ∧
        (∀ x ∈ fl, ∃ j w h, x = MaskInstr.fullPage j w h ∧
            JNum.jlt (.fin (j : ℚ)) (effEndPageIdx p) = true) ∧
        (tl = [] ∨ ∃ j w h, tl = [MaskInstr.topMask j w h
              (JNum.jmul (.fin h) (normRatio r))] ∧
            JNum.jseq (.fin (j : ℚ)) (effEndPageIdx p) = true) ∧
        (computeMaskPlan pages p r).countP MaskInstr.isTopMask ≤ 1) ∧
    computeMaskPlan [(100, 200), (100, 200), (100, 200)] (JVal.num (.fin 2))
        (JVal.num (.fin ((1 : ℚ) / 10))) =
      [MaskInstr.fullPage 0 100 200, MaskInstr.topMask 1 100 200 (.fin 30)] := by
  constructor
  · intro pages p r
    obtain ⟨fl, tl, heq, hfl, htl⟩ :=
      planLoop_shape (effEndPageIdx p) (normRatio r) pages 0
    refine ⟨fl, tl, heq, hfl, htl, ?_⟩
    rw [computeMaskPlan, heq, List.countP_append]
    have hfl0 : fl.countP MaskInstr.isTopMask = 0 := by
      rw [List.countP_eq_zero]
      intro x hx
      obtain ⟨j, w, h, hx', _⟩ := hfl x hx
      simp [hx', MaskInstr.isTopMask]
    rcases htl with h | ⟨j, w, h, htl', _⟩
    · simp [hfl0, h]
    · simp [hfl0, htl', List.countP_cons, MaskInstr.isTopMask]
  · norm_num [computeMaskPlan, planLoop, effEndPageIdx, normRatio, jsTruthy, toNumber,
      JNum.jlt, JNum.jseq, JNum.jadd, JNum.jmin, JNum.jsub, JNum.jneg, JNum.jmul]

/-- Witness for `c4_plan_invariant`: the three-page scenario extracted from
the theorem itself. -/
theorem c4_witness :
    computeMaskPlan [(100, 200), (100, 200), (100, 200)] (JVal.num (.fin 2))
        (JVal.num (.fin ((1 : ℚ) / 10))) =
      [MaskInstr.fullPage 0 100 200, MaskInstr.topMask 1 100 200 (.fin 30)] :=
  c4_plan_invariant.2

/-! ## Claims about the metadata extractor -/

/-- C5 (confirmed). The fallback loop of `analyzeDoc`: the empty candidate
list yields the sentinel; the first candidate whose attempt succeeds is
returned immediately and later candidates are never attempted (the result
and the attempt trace are independent of `post`); earlier candidates are
each attempted exactly once, in order; if every candidate fails the sentinel
is returned after attempting each candidate once; and the sentinel's anchor
is `maskEndPage = 1` / `maskEndRatio = 0.5`, whose effective 0-based page
index is 0. Totality of `analyzeDocT` over every oracle is the embedded form
of "never raises to the caller". -/
theorem c5_extractor_fallback :
    (∀ attempt : String → Option MetaInfo,
      analyzeDocT attempt [] = ([], sentinelMeta)) ∧
    (∀ (attempt : String → Option MetaInfo) (pre : List String) (m : String)
        (post : List String) (r : MetaInfo),
      (∀ x ∈ pre, attempt x = none) → attempt m = some r →
      analyzeDocT attempt (pre ++ m :: post) = (pre ++ [m], r)) ∧
    (∀ (attempt : String → Option MetaInfo) (ms : List String),
      (∀ x ∈ ms, attempt x = none) → analyzeDocT attempt ms = (ms, sentinelMeta)) ∧
    sentinelMeta.maskEndPage = JVal.num (.fin 1) ∧
    sentinelMeta.maskEndRatio = JVal.num (.fin ((1 : ℚ) / 2)) ∧
    effEndPageIdx sentinelMeta.maskEndPage = .fin 0 := by
  refine ⟨fun _ => rfl, ?_, ?_, rfl, rfl, ?_⟩
  · intro attempt pre
    induction pre with
    | nil =>
      intro m post r _ hm
      simp [analyzeDocT, hm]
    | cons a pre ih =>
      intro m post r hpre hm
      have ha : attempt a = none := hpre a (by simp)
      have ih' := ih m post r (fun x hx => hpre x (by simp [hx])) hm
      simp [analyzeDocT, ha, ih']
  · intro attempt ms
    induction ms with
    | nil => intro _; rfl
    | cons a ms ih =>
      intro hms
      have ha : attempt a = none := hms a (by simp)
      have ih' := ih (fun x hx => hms x (by simp [hx]))
      simp [analyzeDocT, ha, ih']
  · norm_num [sentinelMeta, effEndPageIdx, jsTruthy, toNumber,
      JNum.jsub, JNum.jneg, JNum.jadd]

/-- Witness for `c5_extractor_fallback`: with an oracle that succeeds only on
the second candidate of `MODELS_TO_TRY`, exactly the first two candidates are
attempted and the parsed result is returned. -/
theorem c5_witness :
    analyzeDocT
        (fun s => if s = "gemini-2.5-flash" then some sentinelMeta else none)
        MODELS_TO_TRY =
      (["gemini-2.0-flash", "gemini-2.5-flash"], sentinelMeta) :=
  c5_extractor_fallback.2.1
    (fun s => if s = "gemini-2.5-flash" then some sentinelMeta else none)
    ["gemini-2.0-flash"] "gemini-2.5-flash"
    ["gemini-flash-latest", "gemini-pro-latest"] sentinelMeta
    (by intro x hx; simp only [List.mem_singleton] at hx; subst hx; rfl) rfl

/-! ## Claims about the text layout engine -/

lemma wrapLoop_ne_nil (f : String → ℚ) (W : ℚ) :
    ∀ (ws : List String) (cur : String), wrapLoop f W cur ws ≠ [] := by
  intro ws
  induction ws with
  | nil => intro cur; simp [wrapLoop]
  | cons w ws ih =>
    intro cur
    by_cases h : f (cur ++ " " ++ w) < W
    · simpa [wrapLoop, h] using ih (cur ++ " " ++ w)
    · simp [wrapLoop, h]

lemma joinSp_glue (a b : String) (l : List String) :
    joinSp ((a ++ " " ++ b) :: l) = a ++ " " ++ joinSp (b :: l) := by
  cases l with
  | nil => rfl
  | cons c l => simp [joinSp, String.append_assoc]

lemma joinSp_cons_ne (cur : String) (l : List String) (h : l ≠ []) :
    joinSp (cur :: l) = cur ++ " " ++ joinSp l := by
  cases l with
  | nil => exact absurd rfl h
  | cons c l => rfl

lemma joinSp_wrapLoop (f : String → ℚ) (W : ℚ) :
    ∀ (ws : List String) (cur : String),
      joinSp (wrapLoop f W cur ws) = joinSp (cur :: ws) := by
  intro ws
  induction ws with
  | nil => intro cur; rfl
  | cons w ws ih =>
    intro cur
    by_cases h : f (cur ++ " " ++ w) < W
    · simp only [wrapLoop, if_pos h]
      rw [ih (cur ++ " " ++ w)]
      exact joinSp_glue cur w ws
    · simp only [wrapLoop, if_neg h]
      rw [joinSp_cons_ne _ _ (wrapLoop_ne_nil f W ws w), ih w]
      rfl

lemma wrapLoop_mem (f : String → ℚ) (W : ℚ) :
    ∀ (ws : List String) (cur l : String),
      l ∈ wrapLoop f W cur ws → f l < W ∨ l = cur ∨ l ∈ ws := by
  intro ws
  induction ws with
  | nil =>
    intro cur l hl
    simp only [wrapLoop, List.mem_singleton] at hl
    exact Or.inr (Or.inl hl)
  | cons w ws ih =>
    intro cur l hl
    by_cases h : f (cur ++ " " ++ w) < W
    · simp only [wrapLoop, if_pos h] at hl
      rcases ih (cur ++ " " ++ w) l hl with hf | hc | hm
      · exact Or.inl hf
      · exact Or.inl (by rw [hc]; exact h)
      · exact Or.inr (Or.inr (List.mem_cons_of_mem w hm))
    · simp only [wrapLoop, if_neg h] at hl
      rcases List.mem_cons.mp hl with hc | hm
      · exact Or.inr (Or.inl hc)
      · rcases ih w l hm with hf | hc | hm2
        · exact Or.inl hf
        · exact Or.inr (Or.inr (by simp [hc]))
        · exact Or.inr (Or.inr (List.mem_cons_of_mem w hm2))

/-- C6 (confirmed). For every input text, maximum width and measuring
function: (a) every returned line either measures strictly below the maximum
width or is one of the original words (the only possible overflow lines are
single-word lines); (b) space-joining the returned lines reproduces the
space-join of the original words in order; (c) absent and empty input yield
the empty sequence. -/
theorem c6_word_wrap :
    (∀ (t : String) (W : ℚ) (f : String → ℚ) (l : String),
      l ∈ wordWrap (some t) W f → f l < W ∨ l ∈ wordsOf t) ∧
    (∀ (t : String) (W : ℚ) (f : String → ℚ),
      joinSp (wordWrap (some t) W f) = joinSp (wordsOf t)) ∧
    (∀ (W : ℚ) (f : String → ℚ),
      wordWrap none W f = [] ∧ wordWrap (some "") W f = []) := by
  refine ⟨?_, ?_, fun W f => ⟨rfl, rfl⟩⟩
  · intro t W f l hl
    by_cases ht : t = ""
    · subst ht
      simp [wordWrap] at hl
    · simp only [wordWrap, if_neg ht] at hl
      cases hw : wordsOf t with
      | nil => rw [hw] at hl; simp at hl
      | cons w ws =>
        rw [hw] at hl
        rcases wrapLoop_mem f W ws w l hl with hf | hc | hm
        · exact Or.inl hf
        · right; rw [hc]; exact List.mem_cons_self w ws
        · right; exact List.mem_cons_of_mem w hm
  · intro t W f
    by_cases ht : t = ""
    · subst ht
      rfl
    · simp only [wordWrap, if_neg ht]
      cases hw : wordsOf t with
      | nil => rfl
      | cons w ws => exact joinSp_wrapLoop f W ws w

/-- Witness for `c6_word_wrap`: the line "ab cd" produced at width 10 with
the length measure satisfies the width-or-original-word disjunction, and the
join property holds at that input. -/
theorem c6_witness :
    ((fun s : String => (s.length : ℚ)) "ab cd" < 10 ∨ "ab cd" ∈ wordsOf "ab cd") ∧
    joinSp (wordWrap (some "ab cd") 10 (fun s => (s.length : ℚ))) =
      joinSp (wordsOf "ab cd") :=
  ⟨c6_word_wrap.1 "ab cd" 10 (fun s => (s.length : ℚ)) "ab cd" (by decide),
   c6_word_wrap.2.1 "ab cd" 10 (fun s => (s.length : ℚ))⟩

/-! ## Claims about the renderer failure semantics -/

/-- C7 is false on the code: there is no per-field catch. With a drawing
oracle that fails exactly on the string "X" (e.g. a glyph the embedded font
cannot encode, appearing in the parties field), the entire render aborts
with that error — it is not substituted by a placeholder, and the remaining
fields (counsel and the two rewritten sections) are never drawn. -/
theorem c7_counterexample :
    renderFields (fun s => !(s == "X")) (fun _ => (0 : ℚ)) 1000
      { court := "c", caseNo := "n", parties_anonymized := "X",
        lawyer_info := "L", order_anonymized := "o", claim_anonymized := "q",
        maskEndPage := JVal.num (.fin 1), maskEndRatio := JVal.num (.fin 1) }
      { drawn := [], textY := 792 } = Except.error "X" := rfl

/-- C7 (amended): a drawing failure inside any single field is not isolated.
In the handler's straight-line sequence of `drawField` calls, the first field
whose drawing throws aborts the whole render with that error, and none of the
fields after it are drawn (the result does not depend on `post`). -/
theorem c7_field_failure_aborts (ok : String → Bool) (f : String → ℚ)
    (width : ℚ) (pre : List (String × Option String)) (l : String)
    (c : Option String) (post : List (String × Option String))
    (st st' : RState) (e : String)
    (hpre : renderFieldList ok f width pre st = .ok st')
    (hfail : drawField ok f width l c st' = .error e) :
    renderFieldList ok f width (pre ++ (l, c) :: post) st = .error e := by
  induction pre generalizing st with
  | nil =>
    simp only [renderFieldList] at hpre
    cases hpre
    simp only [List.nil_append, renderFieldList, hfail]
  | cons p pre ih =>
    rcases p with ⟨pl, pc⟩
    simp only [renderFieldList, List.cons_append] at hpre ⊢
    cases hd : drawField ok f width pl pc st with
    | error e2 => rw [hd] at hpre; cases hpre
    | ok st2 =>
      rw [hd] at hpre
      exact ih st2 hpre

/-- Witness for `c7_field_failure_aborts`: the second field's content "X"
fails to draw, so the whole sequence errors although a third field is still
pending. -/
theorem c7_witness :
    renderFieldList (fun s => !(s == "X")) (fun _ => (0 : ℚ)) 1000
      ([] ++ ("사건", some "X") :: [("당사자", some "p")])
      { drawn := [], textY := 792 } = Except.error "X" :=
  c7_field_failure_aborts (fun s => !(s == "X")) (fun _ => (0 : ℚ)) 1000
    [] "사건" (some "X") [("당사자", some "p")]
    { drawn := [], textY := 792 } { drawn := [], textY := 792 } "X" rfl rfl

/-! ## Claims about the input-error path -/

/-- C8 is false on the code for the malformed-payload half: with a malformed
base64 payload (every model attempt failing and the PDF loader rejecting the
cleaned payload), the handler still issues the font fetch and all four AI
calls before failing at `PDFDocument.load` — the claim requires it to fail
without issuing any of them. -/
theorem c8_counterexample :
    handlerTrace (some "%%%") (fun _ => none) (fun _ => false) =
      ([CallEv.fontFetch, CallEv.aiCall "gemini-2.0-flash",
        CallEv.aiCall "gemini-2.5-flash", CallEv.aiCall "gemini-flash-latest",
        CallEv.aiCall "gemini-pro-latest", CallEv.pdfLoad],
       Except.error "pdf load failed") ∧
    CallEv.fontFetch ∈ (handlerTrace (some "%%%") (fun _ => none) (fun _ => false)).1 ∧
    CallEv.aiCall "gemini-2.0-flash" ∈
      (handlerTrace (some "%%%") (fun _ => none) (fun _ => false)).1 :=
  ⟨rfl, by decide, by decide⟩

/-- C8 (amended): a missing (or empty) document payload is fatal and surfaced
immediately, with no AI or font call issued. A malformed base64 payload,
however, is not detected at input time: the font fetch and the AI attempts
are issued, and the failure surfaces only when the PDF loader rejects the
cleaned payload. -/
theorem c8_input_error_handling :
    (∀ (attempt : String → Option MetaInfo) (pdfValid : String → Bool),
      handlerTrace none attempt pdfValid = ([], .error "파일 데이터가 없습니다.")) ∧
    (∀ (attempt : String → Option MetaInfo) (pdfValid : String → Bool),
      handlerTrace (some "") attempt pdfValid =
        ([], .error "파일 데이터가 없습니다.")) ∧
    (∀ (fb : String) (attempt : String → Option MetaInfo)
        (pdfValid : String → Bool),
      fb ≠ "" → pdfValid (cleanBase64 fb) = false →
      handlerTrace (some fb) attempt pdfValid =
        (CallEv.fontFetch ::
           (analyzeDocT attempt MODELS_TO_TRY).1.map CallEv.aiCall ++
           [CallEv.pdfLoad],
         .error "pdf load failed")) := by
  refine ⟨fun _ _ => rfl, fun _ _ => rfl, ?_⟩
  intro fb attempt pdfValid hfb hpv
  simp [handlerTrace, hfb, hpv]

/-- Witness for `c8_input_error_handling`: the malformed payload "%%%". -/
theorem c8_witness :
    handlerTrace (some "%%%") (fun _ => none) (fun _ => false) =
      (CallEv.fontFetch ::
         (analyzeDocT (fun _ => none) MODELS_TO_TRY).1.map CallEv.aiCall ++
         [CallEv.pdfLoad],
       Except.error "pdf load failed") :=
  c8_input_error_handling.2.2 "%%%" (fun _ => none) (fun _ => false)
    (by decide) rfl

/-! ## Claims about the publisher contract -/

/-- C9 is false on the code: the object name is not restricted to letters,
digits and dot — the template and the regex replacement both introduce
underscores. Already for the fully-safe display filename "a.pdf" and
timestamp 0, the object name "SECURE_0_a.pdf" contains characters outside
that set. -/
theorem c9_counterexample :
    ((safeName 0 "a.pdf").data.all isFilenameKept) = false := by decide

lemma digitChar_bounds (m : ℕ) (hm : m < 10) :
    '0' ≤ Nat.digitChar m ∧ Nat.digitChar m ≤ '9' := by
  interval_cases m <;> exact (by decide)

lemma toDigitsCore_digits :
    ∀ (fuel n : ℕ) (ds : List Char),
      (∀ c ∈ ds, '0' ≤ c ∧ c ≤ '9') →
      ∀ c ∈ Nat.toDigitsCore 10 fuel n ds, '0' ≤ c ∧ c ≤ '9' := by
  intro fuel
  induction fuel with
  | zero => intro n ds hds c hc; exact hds c hc
  | succ fuel ih =>
    intro n ds hds c hc
    have hd : ∀ x ∈ Nat.digitChar (n % 10) :: ds, '0' ≤ x ∧ x ≤ '9' := by
      intro x hx
      rcases List.mem_cons.mp hx with h | h
      · rw [h]; exact digitChar_bounds (n % 10) (Nat.mod_lt n (by norm_num))
      · exact hds x h
    rw [Nat.toDigitsCore] at hc
    by_cases hz : n / 10 = 0
    · rw [if_pos hz] at hc
      exact hd c hc
    · rw [if_neg hz] at hc
      exact ih (n / 10) _ hd c hc

lemma repr_digits (n : ℕ) :
    ∀ c ∈ (Nat.repr n).data, '0' ≤ c ∧ c ≤ '9' := by
  intro c hc
  have : (Nat.repr n).data = Nat.toDigitsCore 10 (n + 1) n [] := rfl
  rw [this] at hc
  exact toDigitsCore_digits (n + 1) n [] (by simp) c hc

/-- C9 (amended): for every display filename and timestamp, every character
of the object name handed to the storage upload is a letter, a digit, a dot,
or an underscore — the sanitizer maps every character outside `[a-zA-Z0-9.]`
to `'_'`, and the surrounding `SECURE_<timestamp>_` template contributes only
letters, digits and underscores. -/
theorem c9_sanitized_object_name (timestamp : ℕ) (fileName : String) :
    ∀ c ∈ (safeName timestamp fileName).data,
      isFilenameKept c = true ∨ c = '_' := by
  intro c hc
  simp only [safeName, String.data_append] at hc
  rcases List.mem_append.mp hc with hc | hfn
  · rcases List.mem_append.mp hc with hc | hus
    · rcases List.mem_append.mp hc with hpre | hts
      · simp only [List.mem_cons, List.not_mem_nil, or_false] at hpre
        rcases hpre with rfl | rfl | rfl | rfl | rfl | rfl | rfl
        all_goals first
          | exact Or.inl (by decide)
          | exact Or.inr rfl
      · left
        have hb := repr_digits timestamp c hts
        simp only [isFilenameKept, Bool.or_eq_true, Bool.and_eq_true,
          decide_eq_true_eq]
        exact Or.inl (Or.inr ⟨hb.1, hb.2⟩)
    · right
      simpa using hus
  · simp only [List.mem_map] at hfn
    obtain ⟨c0, _, hmap⟩ := hfn
    rw [← hmap]
    by_cases hk : isFilenameKept c0 = true
    · left
      simp [sanitizeChar, hk]
    · right
      simp [sanitizeChar, hk]

/-- Witness for `c9_sanitized_object_name`: the character that the sanitizer
substituted for the space of "a b.pdf" (a member of the object name's
characters, discharged by evaluation) is in the allowed set. -/
theorem c9_witness : isFilenameKept '_' = true ∨ '_' = '_' :=
  c9_sanitized_object_name 7 "a b.pdf" '_' (by decide)

/-! ## Claims about the queue record -/

/-- C10 (confirmed). The record handed to the `document_queue` insert has
`status = 'pending'` and an empty `ai_result` object, and does not depend on
the extracted metadata at all — whether extraction produced a genuine result
or the failure sentinel; the metadata appears only in the HTTP success
response, as `extractedMeta`. -/
theorem c10_queue_record :
    (∀ (m m' : MetaInfo) (objectName publicUrl : String),
      insertedRecord m objectName publicUrl = insertedRecord m' objectName publicUrl) ∧
    (∀ (m : MetaInfo) (objectName publicUrl : String),
      (insertedRecord m objectName publicUrl).status = "pending" ∧
      (insertedRecord m objectName publicUrl).ai_result = []) ∧
    (∀ (m : MetaInfo) (publicUrl : String),
      (successResponse publicUrl m).extractedMeta = m) :=
  ⟨fun _ _ _ _ => rfl, fun _ _ _ => ⟨rfl, rfl⟩, fun _ _ => rfl⟩
